import Mathlib

/-!
Verification of the e-commerce question-answering agent
(`agent.py`: `EcommerceAgent`).  Text is modelled as a list of Unicode
code points (`List Nat`); Python string primitives (`strip`, `rstrip`,
`lower`, `startswith`, substring containment, the code-fence regex
substitution) are embedded as executable functions on such lists.
The LLM completion capability, the SQL store, and pandas date parsing
are external collaborators and appear as oracle fields of `Env`.
-/

deriving instance DecidableEq for Except

namespace ECommerceAgent

/-- Program text as a list of Unicode code points (Python `str` model). -/
abbrev Str := List Nat

/-- Encode a Lean string literal as code points, for concrete test inputs. -/
def enc (s : String) : Str := s.toList.map Char.toNat

/-- Python whitespace test for `str.strip()` (ASCII range: space, TAB, LF,
VT, FF, CR; the Unicode extras are irrelevant to the agent's strings). -/
def isPySpace (c : Nat) : Bool := decide (c = 32 ∨ (9 ≤ c ∧ c ≤ 13))

/-- One code point of Python `str.lower()` (ASCII range). -/
def toLowerN (c : Nat) : Nat := if 65 ≤ c ∧ c ≤ 90 then c + 32 else c

/-- Python `str.lower()` (ASCII range). -/
def lowerL (l : Str) : Str := l.map toLowerN

/-- Boolean prefix test on code-point lists (Python `startswith`). -/
def isPre : Str → Str → Bool
  | [], _ => true
  | _ :: _, [] => false
  | x :: xs, y :: ys => x == y && isPre xs ys

/-- Boolean substring containment (Python `in` on `str`). -/
def containsSub (pat : Str) : Str → Bool
  | [] => isPre pat []
  | c :: cs => isPre pat (c :: cs) || containsSub pat cs

/-- Strip a run of `p`-satisfying code points from the right end
(Python `str.rstrip` with a fixed character class). -/
def rstripIf (p : Nat → Bool) : Str → Str
  | [] => []
  | c :: cs =>
    let r := rstripIf p cs
    if r.isEmpty && p c then [] else c :: r

/-- Python `.rstrip(...)` for the single character code point 59. -/
def rstripSemi (l : Str) : Str := rstripIf (fun c => decide (c = 59)) l

/-- Right half of Python `str.strip()`. -/
def rstripWs (l : Str) : Str := rstripIf isPySpace l

/-- Python `str.strip()` with no arguments. -/
def pyStrip (l : Str) : Str := rstripWs (l.dropWhile isPySpace)

/-- The three-backtick code points opening or closing a markdown fence. -/
def ticks3 : Str := [96, 96, 96]

/-- Does the list start with a case-insensitive markdown fence marker
with language tag, the source regex alternative matched first? -/
def fenceSql (l : Str) : Bool :=
  decide (l.take 3 = ticks3 ∧ lowerL ((l.drop 3).take 3) = [115, 113, 108])

/-- Does the list start with a bare three-backtick fence marker? -/
def fence3 (l : Str) : Bool := decide (l.take 3 = ticks3)

/-- The fence-removing regex substitution of `_sanitize_sql`
(left-to-right, non-overlapping, longest alternative first, replace
each match by the empty string). -/
def stripFences : Str → Str
  | [] => []
  | c :: cs =>
    if fenceSql (c :: cs) then
      -- the guard forces at least six code points, so the catch-all is unreachable
      match cs with
      | _ :: _ :: _ :: _ :: _ :: rest => stripFences rest
      | _ => []
    else if fence3 (c :: cs) then
      -- the guard forces at least three code points, so the catch-all is unreachable
      match cs with
      | _ :: _ :: rest => stripFences rest
      | _ => []
    else c :: stripFences cs

/-- Number of leading backtick code points, used to reason about the
fence-removing substitution. -/
def leadTicks : Str → Nat
  | [] => 0
  | c :: cs => if c = 96 then leadTicks cs + 1 else 0

/-- The spec's failure taxonomy tag attached to each raised error. -/
inductive ErrKind
  | generationFailure
  | invalidQueryKind
  | executionFailure
  deriving DecidableEq

/-- A raised, caught error: its taxonomy kind and its `str(e)` text. -/
structure AgentError where
  kind : ErrKind
  msg : Str
  deriving DecidableEq

/-- The code points of the string "select". -/
def sel6 : Str := enc ("select")

/-- Error-message prefix of the not-a-SELECT rejection. -/
def msgNotSelect : Str := enc ("Generated query is not a SELECT statement: ")

/-- Error-message prefix of the forbidden-operation rejection. -/
def msgForbidden : Str := enc ("Query contains forbidden operations: ")

/-- The seven forbidden keyword-plus-space patterns of `_sanitize_sql`. -/
def forbiddenList : List Str :=
  [enc ("insert "), enc ("update "), enc ("delete "), enc ("drop "),
   enc ("alter "), enc ("truncate "), enc ("create ")]

/-- The normalization pass of `_sanitize_sql`: remove markdown fences,
trim surrounding whitespace, strip trailing semicolons. -/
def normalizeSql (raw : Str) : Str := rstripSemi (pyStrip (stripFences raw))

/-- `EcommerceAgent._sanitize_sql`: normalize, then require a SELECT
start and reject the forbidden keyword-plus-space substrings. -/
def sanitizeSql (raw : Str) : Except AgentError Str :=
  if isPre sel6 ((lowerL (normalizeSql raw)).dropWhile isPySpace) then
    if forbiddenList.any (fun cmd => containsSub cmd (lowerL (normalizeSql raw))) then
      Except.error ⟨ErrKind.invalidQueryKind, msgForbidden ++ normalizeSql raw⟩
    else
      Except.ok (normalizeSql raw)
  else
    Except.error ⟨ErrKind.invalidQueryKind, msgNotSelect ++ normalizeSql raw⟩

/-- A typed scalar cell of a result set; `timestamp` is a parsed date,
`nan` and `inf` are the non-finite floats a zero-divisor ratio yields. -/
inductive Value
  | text (s : Str)
  | int (n : Int)
  | real (q : Rat)
  | bool (b : Bool)
  | timestamp (t : Int)
  | nan
  | inf
  deriving DecidableEq

/-- A materialized query result: ordered column names and rows of cells
aligned with the columns (the pandas DataFrame of `execute_query`). -/
structure ResultSet where
  cols : List Str
  rows : List (List Value)
  deriving DecidableEq

/-- pandas `DataFrame.empty`: some axis has length zero. -/
def ResultSet.isEmptyDf (rs : ResultSet) : Bool := rs.rows.isEmpty || rs.cols.isEmpty

/-- The chart the figure holds when `savefig` runs: a line or bar plot,
or the untouched blank figure.  The raster bytes and the base64 coat are
abstracted away; only which plot was drawn is kept. -/
inductive Chart
  | line (y : Str) (title : Str)
  | bar (x : Str) (y : Str) (title : Str)
  | blank
  deriving DecidableEq

/-- Column-name membership, `name in data.columns`. -/
def hasCol (cols : List Str) (name : Str) : Bool := cols.any (fun c => decide (c = name))

/-- Position of a column name in the header. -/
def colIdx (cols : List Str) (name : Str) : Option Nat :=
  cols.findIdx? (fun c => decide (c = name))

/-- Cell of a row at a column index (rows are aligned with the header;
the default is never reached on well-formed data). -/
def getCell (row : List Value) (i : Nat) : Value := row.getD i Value.nan

/-- Numeric reading of a cell for pandas column division; `none` is the
object-dtype case on which the division raises. -/
def toQ : Value → Option Rat
  | Value.int n => some (n : Rat)
  | Value.real q => some q
  | Value.bool b => some (if b then 1 else 0)
  | _ => none

/-- Exact division of rationals, written through `mkRat` so that it
evaluates on concrete inputs. -/
def ratDiv (x y : Rat) : Rat :=
  if 0 ≤ y.num then mkRat (x.num * y.den) (x.den * y.num.natAbs)
  else mkRat (-(x.num * y.den)) (x.den * y.num.natAbs)

/-- Cell-wise pandas division: zero divisor gives a non-finite float
rather than raising. -/
def vDiv (a b : Value) : Option Value :=
  match toQ a, toQ b with
  | some x, some y =>
      some (if y.num = 0 then (if x.num = 0 then Value.nan else Value.inf)
        else Value.real (ratDiv x y))
  | _, _ => none

/-- Column conversion `data['date'] = pd.to_datetime(data['date'])`:
every cell must parse or the whole assignment raises (`none`). -/
def convertDates (pd : Value → Option Value) (di : Nat) (rows : List (List Value)) :
    Option (List (List Value)) :=
  rows.mapM (fun row =>
    match pd (getCell row di) with
    | some v => some (row.set di v)
    | none => none)

/-- `data['ROAS'] = data['ad_sales'] / data['ad_spend']`: appends the
ratio column in place, or raises (`none`) when a cell is non-numeric. -/
def addRoas (rs : ResultSet) : Option ResultSet :=
  match colIdx rs.cols (enc ("ad_sales")), colIdx rs.cols (enc ("ad_spend")) with
  | some i, some j =>
    match rs.rows.mapM (fun row => (vDiv (getCell row i) (getCell row j)).map
        (fun v => row ++ [v])) with
    | some rows2 => some ⟨rs.cols ++ [enc ("ROAS")], rows2⟩
    | none => none
  | _, _ => none

/-- `EcommerceAgent.generate_visualization`.  Returns the optional chart
together with the DataFrame as the caller sees it afterwards: the date
conversion and the ROAS column are in-place mutations of the shared
frame, while `sort_values` rebinds only the local name.  An exception
inside the `try` block is caught, skipping `savefig`, so the chart is
`none`; when no plot rule fires the blank figure is still saved.  `pd`
is the external pandas date parser. -/
def generateVisualization (pd : Value → Option Value) (question : Str) (rs : ResultSet) :
    Option Chart × ResultSet :=
  if rs.isEmptyDf then (none, rs)
  else if hasCol rs.cols (enc ("date")) then
    match colIdx rs.cols (enc ("date")) with
    | none => (none, rs)
    | some di =>
      match convertDates pd di rs.rows with
      | none => (none, rs)
      | some rows2 =>
        let rs2 : ResultSet := ⟨rs.cols, rows2⟩
        if hasCol rs.cols (enc ("total_sales")) then
          (some (Chart.line (enc ("total_sales")) (enc ("Sales Trend"))), rs2)
        else if hasCol rs.cols (enc ("ad_sales")) then
          (some (Chart.line (enc ("ad_sales")) (enc ("Ad Performance"))), rs2)
        else
          (some Chart.blank, rs2)
  else if hasCol rs.cols (enc ("item_id")) && hasCol rs.cols (enc ("ad_sales")) &&
      hasCol rs.cols (enc ("ad_spend")) then
    match addRoas rs with
    | none => (none, rs)
    | some rs2 =>
      (some (Chart.bar (enc ("item_id")) (enc ("ROAS")) (enc ("Return on Ad Spend"))), rs2)
  else
    (some Chart.blank, rs)

/-- The injected external collaborators: the completion capability for
SQL and for answers (either may fail with a transport error text), the
relational store, and the pandas date parser. -/
structure Env where
  llmSql : Str → Except Str Str
  dbQuery : Str → Except Str ResultSet
  llmAnswer : Str → ResultSet → Str → Except Str Str
  parseDate : Value → Option Value

/-- `EcommerceAgent.generate_sql`: run the completion chain, trim its
output, sanitize. -/
def generateSql (env : Env) (question : Str) : Except AgentError Str :=
  match env.llmSql question with
  | Except.error m => Except.error ⟨ErrKind.generationFailure, m⟩
  | Except.ok raw => sanitizeSql (pyStrip raw)

/-- Error-message prefix of a wrapped store failure. -/
def msgExecFail : Str := enc ("SQL execution failed: ")

/-- The separator the store-failure wrapper puts before the query text. -/
def msgQuerySep : Str := enc ("\nQuery: ")

/-- `EcommerceAgent.execute_query`: run the SQL, wrapping any store
error into one message naming the underlying error and the query. -/
def executeQuery (env : Env) (sql : Str) : Except AgentError ResultSet :=
  match env.dbQuery sql with
  | Except.error m => Except.error ⟨ErrKind.executionFailure, msgExecFail ++ m ++ msgQuerySep ++ sql⟩
  | Except.ok rs => Except.ok rs

/-- `EcommerceAgent.generate_answer`: one completion call over the
serialized rows; fails only if the capability itself fails. -/
def generateAnswer (env : Env) (question : Str) (data : ResultSet) (sql : Str) :
    Except AgentError Str :=
  match env.llmAnswer question data sql with
  | Except.error m => Except.error ⟨ErrKind.generationFailure, m⟩
  | Except.ok a => Except.ok a

/-- Suggestion template for a missing table. -/
def sugTables : Str :=
  enc ("Try rephrasing to use sales_metrics, ad_metrics, or product_eligibility tables")

/-- Suggestion template for a missing column. -/
def sugColumns : Str :=
  enc ("Available columns: date, item_id, total_sales, ad_sales, ad_spend, etc.")

/-- Suggestion template for messages mentioning select. -/
def sugQueries : Str :=
  enc ("Ask about data queries like \x27Show me sales for product X\x27 or \x27Compare ad performance\x27")

/-- The generic fallback suggestion. -/
def sugGeneric : Str := enc ("Try being more specific about what data you need")

/-- `EcommerceAgent._get_suggestion`: map the failure text to one of the
four fixed templates by case-insensitive substring tests. -/
def getSuggestion (question : Str) (error : Str) : Str :=
  if containsSub (enc ("no such table")) (lowerL error) then sugTables
  else if containsSub (enc ("no such column")) (lowerL error) then sugColumns
  else if containsSub sel6 (lowerL error) then sugQueries
  else sugGeneric

/-- The structured reply of `EcommerceAgent.query`: the success record
or the failure record with error, suggestion and the SQL generated so
far (absent when generation itself failed). -/
inductive AgentResponse
  | success (answer : Str) (data : ResultSet) (visualization : Option Chart) (sql : Str)
  | failure (error : AgentError) (suggestion : Str) (sql : Option Str)
  deriving DecidableEq

/-- `EcommerceAgent.query`: the orchestration pipeline.  Each stage's
raised error is caught at the single handler, which builds the failure
record; `sql` is attached only once generation has returned. -/
def agentQuery (env : Env) (question : Str) : AgentResponse :=
  match generateSql env question with
  | Except.error e => AgentResponse.failure e (getSuggestion question e.msg) none
  | Except.ok sql =>
    match executeQuery env sql with
    | Except.error e => AgentResponse.failure e (getSuggestion question e.msg) (some sql)
    | Except.ok data =>
      match generateAnswer env question data sql with
      | Except.error e => AgentResponse.failure e (getSuggestion question e.msg) (some sql)
      | Except.ok answer =>
        let vd := generateVisualization env.parseDate question data
        AgentResponse.success answer vd.snd vd.fst sql

/-- Modelled from the spec's words (section on the orchestrator's
fallback policy), for comparison with the source's `getSuggestion`:
four fixed templates chosen by case-insensitive substring match on the
failure message, in the priority order table, column, select, generic. -/
def suggestionSpec (error : Str) : Str :=
  if containsSub (enc ("no such table")) (lowerL error) then sugTables
  else if containsSub (enc ("no such column")) (lowerL error) then sugColumns
  else if containsSub sel6 (lowerL error) then sugQueries
  else sugGeneric

/-- A date parser oracle that parses nothing; the date branch is never
exercised by the fixtures that use it. -/
def pd0 : Value → Option Value := fun _ => none

/-- A result set with one column and no rows (an empty DataFrame). -/
def rsEmptyX : ResultSet := ⟨[enc ("x")], []⟩

/-- A non-empty result set whose single column matches no chart rule. -/
def rsNoRule : ResultSet := ⟨[enc ("x")], [[Value.int 1]]⟩

/-- A non-empty result set with the three columns of the ratio-chart
rule. -/
def rsRoas : ResultSet :=
  ⟨[enc ("item_id"), enc ("ad_sales"), enc ("ad_spend")],
   [[Value.int 1, Value.real 10, Value.real 2]]⟩

/-- The same rows as `rsRoas` after the visualizer's in-place mutation:
a ROAS column holding the ratio has been appended. -/
def rsRoasAfter : ResultSet :=
  ⟨[enc ("item_id"), enc ("ad_sales"), enc ("ad_spend"), enc ("ROAS")],
   [[Value.int 1, Value.real 10, Value.real 2, Value.real 5]]⟩

/-- Fixture: the completion capability emits text that contains the
substring of the word delete followed by a space, yet trimming removes
that trailing space before validation. -/
def envC2 : Env :=
  ⟨fun _ => Except.ok (enc ("select delete ")),
   fun _ => Except.ok rsEmptyX,
   fun _ _ _ => Except.ok (enc ("ans")),
   pd0⟩

/-- Fixture: a completion emitting a ratio-rule query over a store
returning `rsRoas`. -/
def envC7 : Env :=
  ⟨fun _ => Except.ok (enc ("SELECT item_id, ad_sales, ad_spend FROM ad_metrics")),
   fun _ => Except.ok rsRoas,
   fun _ _ _ => Except.ok (enc ("ans")),
   pd0⟩

/-- Fixture: the completion capability itself fails. -/
def envGenFail : Env :=
  ⟨fun _ => Except.error (enc ("boom")),
   fun _ => Except.ok rsEmptyX,
   fun _ _ _ => Except.ok (enc ("ans")),
   pd0⟩

/-- Fixture: the completion capability emits a mutating statement that
validation must reject. -/
def envBadSql : Env :=
  ⟨fun _ => Except.ok (enc ("DELETE FROM t")),
   fun _ => Except.ok rsEmptyX,
   fun _ _ _ => Except.ok (enc ("ans")),
   pd0⟩

/-! Library of facts about the string primitives. -/

theorem isPre_nil (l : Str) : isPre [] l = true := by
  cases l <;> rfl

theorem isPre_trans : ∀ {a b c : Str}, isPre a b = true → isPre b c = true → isPre a c = true
  | [], _, c, _, _ => isPre_nil c
  | _ :: _, [], _, h1, _ => by simp [isPre] at h1
  | _ :: _, _ :: _, [], _, h2 => by simp [isPre] at h2
  | x :: xs, y :: ys, z :: zs, h1, h2 => by
    simp only [isPre, Bool.and_eq_true, beq_iff_eq] at h1 h2 ⊢
    exact ⟨h1.1.trans h2.1, isPre_trans h1.2 h2.2⟩

theorem containsSub_of_isPre {pat l : Str} (h : isPre pat l = true) :
    containsSub pat l = true := by
  cases l with
  | nil => simpa [containsSub] using h
  | cons c cs => simp [containsSub, h]

theorem containsSub_cons {pat : Str} (c : Nat) {cs : Str} (h : containsSub pat cs = true) :
    containsSub pat (c :: cs) = true := by
  simp [containsSub, h]

theorem containsSub_isPre_trans : ∀ {pat a b : Str}, isPre a b = true →
    containsSub pat a = true → containsSub pat b = true
  | pat, [], b, _, h => by
    simp only [containsSub] at h
    exact containsSub_of_isPre (isPre_trans h (isPre_nil b))
  | pat, _ :: _, [], hab, _ => by simp [isPre] at hab
  | pat, x :: xs, y :: ys, hab, h => by
    simp only [isPre, Bool.and_eq_true, beq_iff_eq] at hab
    obtain ⟨rfl, hxs⟩ := hab
    simp only [containsSub, Bool.or_eq_true] at h ⊢
    rcases h with h | h
    · exact Or.inl (isPre_trans h (by simp [isPre, hxs]))
    · exact Or.inr (containsSub_isPre_trans hxs h)

theorem containsSub_dropWhile (p : Nat → Bool) : ∀ {pat l : Str},
    containsSub pat (l.dropWhile p) = true → containsSub pat l = true := by
  intro pat l
  induction l with
  | nil => simp [List.dropWhile]
  | cons c cs ih =>
    intro h
    rw [List.dropWhile_cons] at h
    by_cases hc : p c = true
    · simp only [hc, if_true] at h
      exact containsSub_cons c (ih h)
    · simp only [Bool.not_eq_true] at hc
      simpa [hc] using h

theorem rstripIf_cons (p : Nat → Bool) (c : Nat) (cs : Str) :
    rstripIf p (c :: cs) = [] ∨ rstripIf p (c :: cs) = c :: rstripIf p cs := by
  simp only [rstripIf]
  split
  · exact Or.inl rfl
  · exact Or.inr rfl

theorem rstripIf_cons_of_notp {p : Nat → Bool} {c : Nat} (cs : Str) (h : p c = false) :
    rstripIf p (c :: cs) = c :: rstripIf p cs := by
  simp [rstripIf, h]

theorem rstripIf_isPre (p : Nat → Bool) : ∀ l : Str, isPre (rstripIf p l) l = true
  | [] => rfl
  | c :: cs => by
    rcases rstripIf_cons p c cs with h | h <;> rw [h]
    · exact isPre_nil _
    · simp [isPre, rstripIf_isPre p cs]

theorem rstripIf_idem (p : Nat → Bool) : ∀ l : Str, rstripIf p (rstripIf p l) = rstripIf p l
  | [] => rfl
  | c :: cs => by
    simp only [rstripIf]
    split
    · rfl
    · rename_i hcond
      have ih := rstripIf_idem p cs
      simp [rstripIf, ih, hcond]

theorem rstripIf_getLast (p : Nat → Bool) (l : Str) : ∀ c : Nat,
    (rstripIf p l).getLast? = some c → p c = false := by
  induction l with
  | nil => intro c h; simp [rstripIf] at h
  | cons a l ih =>
    intro c h
    rcases rstripIf_cons p a l with he | he <;> rw [he] at h
    · simp at h
    · cases hr : rstripIf p l with
      | nil =>
        rw [hr] at h
        simp only [List.getLast?_singleton, Option.some.injEq] at h
        subst h
        by_cases hp : p a = true
        · exfalso
          have hz : rstripIf p (a :: l) = [] := by simp [rstripIf, hr, hp]
          rw [hr] at he
          rw [hz] at he
          exact List.cons_ne_nil a [] he.symm
        · simpa using hp
      | cons b bs =>
        rw [hr, List.getLast?_cons_cons] at h
        exact ih c (by rw [hr]; exact h)

theorem dropWhile_head (p : Nat → Bool) : ∀ (l : Str) (c : Nat),
    (l.dropWhile p).head? = some c → p c = false
  | [], c => by simp [List.dropWhile]
  | a :: l, c => by
    intro h
    rw [List.dropWhile_cons] at h
    by_cases hp : p a = true
    · simp only [hp, if_true] at h
      exact dropWhile_head p l c h
    · simp only [Bool.not_eq_true] at hp
      simp only [hp, Bool.false_eq_true, if_false, List.head?_cons, Option.some.injEq] at h
      subst h; exact hp

theorem rstripIf_head (p : Nat → Bool) (l : Str) :
    (rstripIf p l).head? = none ∨ (rstripIf p l).head? = l.head? := by
  cases l with
  | nil => exact Or.inl rfl
  | cons c cs =>
    rcases rstripIf_cons p c cs with h | h <;> rw [h]
    · exact Or.inl rfl
    · exact Or.inr rfl

theorem dropWhile_of_head_false {p : Nat → Bool} : ∀ {l : Str},
    (∀ c, l.head? = some c → p c = false) → l.dropWhile p = l
  | [], _ => rfl
  | c :: cs, h => by
    have hc : p c = false := h c rfl
    simp [List.dropWhile_cons, hc]

theorem lowerL_isPre : ∀ {a b : Str}, isPre a b = true → isPre (lowerL a) (lowerL b) = true
  | [], b, _ => isPre_nil _
  | _ :: _, [], h => by simp [isPre] at h
  | x :: xs, y :: ys, h => by
    simp only [isPre, Bool.and_eq_true, beq_iff_eq] at h
    obtain ⟨rfl, hxs⟩ := h
    simp only [lowerL, List.map_cons, isPre, beq_self_eq_true, Bool.true_and]
    exact lowerL_isPre hxs

theorem isPySpace_toLowerN (c : Nat) : isPySpace (toLowerN c) = isPySpace c := by
  unfold toLowerN
  split
  · rename_i h
    unfold isPySpace
    rw [decide_eq_decide]
    omega
  · rfl

/-! Facts about the fence-removing substitution. -/

theorem take3_eq : ∀ {l : Str}, l.take 3 = ticks3 → ∃ r, l = 96 :: 96 :: 96 :: r := by
  intro l h
  match l with
  | [] => simp [ticks3] at h
  | [a] => simp [ticks3] at h
  | [a, b] => simp [ticks3] at h
  | a :: b :: c :: r =>
    simp only [List.take_succ_cons, List.take_zero, ticks3, List.cons.injEq, and_true] at h
    obtain ⟨rfl, rfl, rfl, -⟩ := h
    exact ⟨r, rfl⟩

theorem lower3_eq : ∀ {t : Str}, lowerL (t.take 3) = [115, 113, 108] →
    ∃ x y z r, t = x :: y :: z :: r := by
  intro t h
  match t with
  | [] => simp [lowerL] at h
  | [x] => simp [lowerL] at h
  | [x, y] => simp [lowerL] at h
  | x :: y :: z :: r => exact ⟨x, y, z, r, rfl⟩

theorem fenceSql_shape {l : Str} (h : fenceSql l = true) :
    ∃ x y z r, l = 96 :: 96 :: 96 :: x :: y :: z :: r ∧ lowerL [x, y, z] = [115, 113, 108] := by
  unfold fenceSql at h
  rw [decide_eq_true_eq] at h
  obtain ⟨h1, h2⟩ := h
  obtain ⟨t, rfl⟩ := take3_eq h1
  simp only [List.drop_succ_cons, List.drop_zero] at h2
  obtain ⟨x, y, z, r, rfl⟩ := lower3_eq h2
  refine ⟨x, y, z, r, rfl, ?_⟩
  simpa [List.take] using h2

theorem fence3_shape {l : Str} (h : fence3 l = true) : ∃ r, l = 96 :: 96 :: 96 :: r := by
  unfold fence3 at h
  rw [decide_eq_true_eq] at h
  exact take3_eq h

theorem fenceSql_of_nontick {c : Nat} {cs : Str} (h : c ≠ 96) : fenceSql (c :: cs) = false := by
  rw [← Bool.not_eq_true]
  intro hf
  obtain ⟨x, y, z, r, he, -⟩ := fenceSql_shape hf
  injection he with e1 _
  exact h e1

theorem fence3_of_nontick {c : Nat} {cs : Str} (h : c ≠ 96) : fence3 (c :: cs) = false := by
  rw [← Bool.not_eq_true]
  intro hf
  obtain ⟨r, he⟩ := fence3_shape hf
  injection he with e1 _
  exact h e1

theorem stripFences_cons_nofence {c : Nat} {cs : Str} (h1 : fenceSql (c :: cs) = false)
    (h2 : fence3 (c :: cs) = false) : stripFences (c :: cs) = c :: stripFences cs := by
  rw [stripFences.eq_def]
  simp [h1, h2]

theorem stripFences_cons_nontick {c : Nat} (cs : Str) (h : c ≠ 96) :
    stripFences (c :: cs) = c :: stripFences cs :=
  stripFences_cons_nofence (fenceSql_of_nontick h) (fence3_of_nontick h)

theorem stripFences_sql {x y z : Nat} (r : Str) (h : lowerL [x, y, z] = [115, 113, 108]) :
    stripFences (96 :: 96 :: 96 :: x :: y :: z :: r) = stripFences r := by
  have hf : fenceSql (96 :: 96 :: 96 :: x :: y :: z :: r) = true := by
    unfold fenceSql
    rw [decide_eq_true_eq]
    exact ⟨rfl, by simpa [List.take] using h⟩
  simp [stripFences, hf]

theorem stripFences_tick3 (r : Str) (h : fenceSql (96 :: 96 :: 96 :: r) = false) :
    stripFences (96 :: 96 :: 96 :: r) = stripFences r := by
  have h3 : fence3 (96 :: 96 :: 96 :: r) = true := by
    unfold fence3
    rw [decide_eq_true_eq]
    rfl
  rw [stripFences.eq_def]
  simp [h, h3]

theorem leadTicks_le_one : ∀ {cs : Str}, cs.take 2 ≠ [96, 96] → leadTicks cs ≤ 1 := by
  intro cs h
  match cs with
  | [] => simp [leadTicks]
  | [a] => simp only [leadTicks]; split <;> simp [leadTicks]
  | a :: b :: t =>
    simp only [List.take_succ_cons, List.take_zero] at h
    by_cases ha : a = 96
    · by_cases hb : b = 96
      · subst ha; subst hb; simp at h
      · subst ha; simp [leadTicks, hb]
    · simp [leadTicks, ha]

theorem leadTicks_of_isPre2 {r : Str} (h : isPre [96, 96] r = true) : 2 ≤ leadTicks r := by
  match r with
  | [] => simp [isPre] at h
  | [a] => simp [isPre] at h
  | a :: b :: t =>
    simp only [isPre, Bool.and_eq_true, beq_iff_eq] at h
    obtain ⟨h1, h2, -⟩ := h
    subst h1; subst h2
    simp [leadTicks]

theorem isPre_ticks2 {r : Str} (h : leadTicks r ≤ 1) : isPre [96, 96] r = false := by
  rw [← Bool.not_eq_true]
  intro h2
  have := leadTicks_of_isPre2 h2
  omega

theorem leadTicks_stripFences : ∀ {l : Str}, leadTicks l ≤ 1 → leadTicks (stripFences l) ≤ 1 := by
  intro l h
  cases l with
  | nil => simpa [stripFences] using h
  | cons c cs =>
    by_cases hc : c = 96
    · subst hc
      have hcs : leadTicks cs = 0 := by
        simp [leadTicks] at h
        omega
      cases cs with
      | nil => decide
      | cons d ds =>
        have hd : d ≠ 96 := by
          intro hd
          subst hd
          simp [leadTicks] at hcs
        have h1 : fenceSql (96 :: d :: ds) = false := by
          rw [← Bool.not_eq_true]
          intro hf
          obtain ⟨x, y, z, r, he, -⟩ := fenceSql_shape hf
          injection he with e1 e2
          injection e2 with e2 _
          exact hd e2
        have h2 : fence3 (96 :: d :: ds) = false := by
          rw [← Bool.not_eq_true]
          intro hf
          obtain ⟨r, he⟩ := fence3_shape hf
          injection he with e1 e2
          injection e2 with e2 _
          exact hd e2
        rw [stripFences_cons_nofence h1 h2, stripFences_cons_nontick ds hd]
        simp [leadTicks, hd]
    · rw [stripFences_cons_nontick cs hc]
      simp [leadTicks, hc]

theorem stripFences_noFence (l : Str) : containsSub ticks3 (stripFences l) = false := by
  generalize hn : l.length = n
  induction n using Nat.strong_induction_on generalizing l with
  | _ n ih =>
    cases l with
    | nil => simp [stripFences, containsSub, isPre, ticks3]
    | cons c cs =>
      by_cases hf : fenceSql (c :: cs) = true
      · obtain ⟨x, y, z, r, he, hxyz⟩ := fenceSql_shape hf
        have hlen : r.length < n := by
          rw [← hn, he]
          simp only [List.length_cons]
          omega
        rw [he, stripFences_sql r hxyz]
        exact ih r.length hlen r rfl
      · by_cases h3 : fence3 (c :: cs) = true
        · obtain ⟨r, he⟩ := fence3_shape h3
          have hlen : r.length < n := by
            rw [← hn, he]
            simp only [List.length_cons]
            omega
          rw [he] at hf
          rw [Bool.not_eq_true] at hf
          rw [he, stripFences_tick3 r hf]
          exact ih r.length hlen r rfl
        · have hcs : containsSub ticks3 (stripFences cs) = false :=
            ih cs.length (by rw [← hn]; simp) cs rfl
          rw [Bool.not_eq_true] at hf h3
          rw [stripFences_cons_nofence hf h3]
          simp only [containsSub, hcs, Bool.or_false]
          by_cases hc : c = 96
          · subst hc
            have htake : cs.take 2 ≠ [96, 96] := by
              intro ht
              rw [← Bool.not_eq_true] at h3
              apply h3
              unfold fence3
              rw [decide_eq_true_eq]
              simp [ticks3, ht]
            have hlt : leadTicks (stripFences cs) ≤ 1 :=
              leadTicks_stripFences (leadTicks_le_one htake)
            simp [ticks3, isPre, isPre_ticks2 hlt]
          · simp [ticks3, isPre, beq_iff_eq]
            intro h96
            exact absurd h96.symm hc

theorem stripFences_id : ∀ {l : Str}, containsSub ticks3 l = false → stripFences l = l := by
  intro l h
  induction l with
  | nil => rfl
  | cons c cs ih =>
    simp only [containsSub, Bool.or_eq_false_iff] at h
    obtain ⟨hp, hcs⟩ := h
    have h3 : fence3 (c :: cs) = false := by
      rw [← Bool.not_eq_true]
      intro hf
      obtain ⟨r, he⟩ := fence3_shape hf
      rw [he] at hp
      simp [ticks3, isPre] at hp
    have h1 : fenceSql (c :: cs) = false := by
      rw [← Bool.not_eq_true]
      intro hf
      obtain ⟨x, y, z, r, he, -⟩ := fenceSql_shape hf
      rw [he] at hp
      simp [ticks3, isPre] at hp
    rw [stripFences_cons_nofence h1 h3, ih hcs]

/-! Consequences for the sanitizer. -/

theorem normalize_noFence (raw : Str) : containsSub ticks3 (normalizeSql raw) = false := by
  rw [← Bool.not_eq_true]
  intro h
  unfold normalizeSql pyStrip at h
  have h1 := containsSub_isPre_trans (rstripIf_isPre _ _) h
  have h2 := containsSub_isPre_trans (rstripIf_isPre _ _) h1
  have h3 := containsSub_dropWhile isPySpace h2
  rw [stripFences_noFence raw] at h3
  exact Bool.false_ne_true h3

theorem normalize_head (raw : Str) : ∀ c, (normalizeSql raw).head? = some c →
    isPySpace c = false := by
  intro c h
  unfold normalizeSql rstripSemi pyStrip rstripWs at h
  rcases rstripIf_head (fun c => decide (c = 59))
      (rstripIf isPySpace ((stripFences raw).dropWhile isPySpace)) with hh | hh <;> rw [hh] at h
  · exact absurd h (by simp)
  · rcases rstripIf_head isPySpace ((stripFences raw).dropWhile isPySpace) with hg | hg <;>
      rw [hg] at h
    · exact absurd h (by simp)
    · exact dropWhile_head isPySpace _ c h

theorem normalize_last_ne_semi (raw : Str) : (normalizeSql raw).getLast? ≠ some 59 := by
  intro h
  have := rstripIf_getLast (fun c => decide (c = 59)) _ _ h
  simp at this

theorem sanitize_ok_elim {raw s : Str} (h : sanitizeSql raw = Except.ok s) :
    s = normalizeSql raw ∧
    isPre sel6 ((lowerL (normalizeSql raw)).dropWhile isPySpace) = true ∧
    (forbiddenList.any fun cmd => containsSub cmd (lowerL (normalizeSql raw))) = false := by
  unfold sanitizeSql at h
  split at h
  · split at h
    · exact absurd h (by simp)
    · rename_i hsel hforb
      refine ⟨?_, hsel, by rwa [Bool.not_eq_true] at hforb⟩
      injection h with h
      exact h.symm
  · exact absurd h (by simp)

theorem sanitize_error_kind {raw : Str} {e : AgentError} (h : sanitizeSql raw = Except.error e) :
    e.kind = ErrKind.invalidQueryKind := by
  unfold sanitizeSql at h
  split at h
  · split at h
    · injection h with h
      rw [← h]
    · exact absurd h (by simp)
  · injection h with h
    rw [← h]

theorem sanitize_forbidden_error {raw : Str}
    (h : (forbiddenList.any fun cmd => containsSub cmd (lowerL (normalizeSql raw))) = true) :
    ∃ e, sanitizeSql raw = Except.error e ∧ e.kind = ErrKind.invalidQueryKind := by
  unfold sanitizeSql
  split
  · exact ⟨_, rfl, rfl⟩
  · exact ⟨_, rfl, rfl⟩

theorem lower_dropWhile_self {l : Str} (hh : ∀ c, l.head? = some c → isPySpace c = false) :
    (lowerL l).dropWhile isPySpace = lowerL l := by
  apply dropWhile_of_head_false
  intro c hc
  cases l with
  | nil => simp [lowerL] at hc
  | cons a l' =>
    simp only [lowerL, List.map_cons, List.head?_cons, Option.some.injEq] at hc
    subst hc
    rw [isPySpace_toLowerN]
    exact hh a rfl

theorem sel6_eq : sel6 = [115, 101, 108, 101, 99, 116] := rfl

theorem sel6_decomp : ∀ {s : Str}, isPre sel6 (lowerL s) = true →
    ∃ a b c d e f r, s = a :: b :: c :: d :: e :: f :: r ∧
      toLowerN a = 115 ∧ toLowerN b = 101 ∧ toLowerN c = 108 ∧
      toLowerN d = 101 ∧ toLowerN e = 99 ∧ toLowerN f = 116 := by
  intro s h
  match s with
  | [] => simp [sel6_eq, lowerL, isPre] at h
  | [a] => simp [sel6_eq, lowerL, isPre] at h
  | [a, b] => simp [sel6_eq, lowerL, isPre] at h
  | [a, b, c] => simp [sel6_eq, lowerL, isPre] at h
  | [a, b, c, d] => simp [sel6_eq, lowerL, isPre] at h
  | [a, b, c, d, e] => simp [sel6_eq, lowerL, isPre] at h
  | a :: b :: c :: d :: e :: f :: r =>
    simp only [sel6_eq, lowerL, List.map_cons, isPre, Bool.and_eq_true, beq_iff_eq] at h
    obtain ⟨h1, h2, h3, h4, h5, h6, -⟩ := h
    exact ⟨a, b, c, d, e, f, r, rfl, h1.symm, h2.symm, h3.symm, h4.symm, h5.symm, h6.symm⟩

theorem any_forbidden_mono {a b : Str} (hab : isPre a b = true)
    (h : (forbiddenList.any fun cmd => containsSub cmd (lowerL b)) = false) :
    (forbiddenList.any fun cmd => containsSub cmd (lowerL a)) = false := by
  rw [← Bool.not_eq_true] at h ⊢
  intro ha
  apply h
  rw [List.any_eq_true] at ha ⊢
  obtain ⟨cmd, hmem, hc⟩ := ha
  exact ⟨cmd, hmem, containsSub_isPre_trans (lowerL_isPre hab) hc⟩

theorem sanitize_revalidate {raw s : Str} (h : sanitizeSql raw = Except.ok s) :
    sanitizeSql s = Except.ok (rstripSemi (rstripWs s)) := by
  obtain ⟨hs, hsel, hforb⟩ := sanitize_ok_elim h
  rw [← hs] at hsel hforb
  have hhead : ∀ c, s.head? = some c → isPySpace c = false := by
    rw [hs]
    exact normalize_head raw
  have hnf : containsSub ticks3 s = false := by
    rw [hs]
    exact normalize_noFence raw
  have hSF : stripFences s = s := stripFences_id hnf
  have hDW : s.dropWhile isPySpace = s := dropWhile_of_head_false hhead
  have hNorm2 : normalizeSql s = rstripSemi (rstripWs s) := by
    unfold normalizeSql pyStrip
    rw [hSF, hDW]
  have hsel1 : isPre sel6 (lowerL s) = true := by
    rwa [lower_dropWhile_self hhead] at hsel
  obtain ⟨a, b, c, d, e, f, r, hdec, ha, hb, hc, hd, he, hf⟩ := sel6_decomp hsel1
  have pa : isPySpace a = false := by rw [← isPySpace_toLowerN, ha]; rfl
  have pb : isPySpace b = false := by rw [← isPySpace_toLowerN, hb]; rfl
  have pc : isPySpace c = false := by rw [← isPySpace_toLowerN, hc]; rfl
  have pd : isPySpace d = false := by rw [← isPySpace_toLowerN, hd]; rfl
  have pe : isPySpace e = false := by rw [← isPySpace_toLowerN, he]; rfl
  have pf : isPySpace f = false := by rw [← isPySpace_toLowerN, hf]; rfl
  have da : decide (a = 59) = false := decide_eq_false fun hq => by
    rw [hq] at ha; exact absurd ha (by decide)
  have db : decide (b = 59) = false := decide_eq_false fun hq => by
    rw [hq] at hb; exact absurd hb (by decide)
  have dc : decide (c = 59) = false := decide_eq_false fun hq => by
    rw [hq] at hc; exact absurd hc (by decide)
  have dd : decide (d = 59) = false := decide_eq_false fun hq => by
    rw [hq] at hd; exact absurd hd (by decide)
  have de : decide (e = 59) = false := decide_eq_false fun hq => by
    rw [hq] at he; exact absurd he (by decide)
  have df : decide (f = 59) = false := decide_eq_false fun hq => by
    rw [hq] at hf; exact absurd hf (by decide)
  have hws : rstripWs s = a :: b :: c :: d :: e :: f :: rstripWs r := by
    rw [hdec]
    unfold rstripWs
    rw [rstripIf_cons_of_notp _ pa, rstripIf_cons_of_notp _ pb, rstripIf_cons_of_notp _ pc,
      rstripIf_cons_of_notp _ pd, rstripIf_cons_of_notp _ pe, rstripIf_cons_of_notp _ pf]
  have hsm : rstripSemi (rstripWs s) =
      a :: b :: c :: d :: e :: f :: rstripSemi (rstripWs r) := by
    rw [hws]
    unfold rstripSemi
    rw [rstripIf_cons_of_notp _ da, rstripIf_cons_of_notp _ db, rstripIf_cons_of_notp _ dc,
      rstripIf_cons_of_notp _ dd, rstripIf_cons_of_notp _ de, rstripIf_cons_of_notp _ df]
  have hsel2 : isPre sel6 ((lowerL (rstripSemi (rstripWs s))).dropWhile isPySpace) = true := by
    rw [hsm]
    have hdw : (lowerL (a :: b :: c :: d :: e :: f :: rstripSemi (rstripWs r))).dropWhile
        isPySpace = lowerL (a :: b :: c :: d :: e :: f :: rstripSemi (rstripWs r)) := by
      apply dropWhile_of_head_false
      intro c0 hc0
      simp only [lowerL, List.map_cons, List.head?_cons, Option.some.injEq] at hc0
      rw [← hc0, isPySpace_toLowerN]
      exact pa
    rw [hdw]
    simp [lowerL, isPre, sel6_eq, ha, hb, hc, hd, he, hf, isPre_nil]
  have hpre : isPre (rstripSemi (rstripWs s)) s = true := by
    unfold rstripSemi rstripWs
    exact isPre_trans (rstripIf_isPre _ _) (rstripIf_isPre _ _)
  have hforb2 := any_forbidden_mono hpre hforb
  unfold sanitizeSql
  rw [hNorm2]
  simp [hsel2, hforb2]

theorem sanitize_output_rstripSemi {raw s : Str} (h : sanitizeSql raw = Except.ok s) :
    rstripSemi s = s := by
  obtain ⟨hs, -, -⟩ := sanitize_ok_elim h
  rw [hs]
  unfold normalizeSql rstripSemi
  exact rstripIf_idem _ _

/-! Claim C1. -/

/-- C1, counterexample: the validator accepts a query that contains the
mutating keyword create as a case-insensitive substring (inside the
column name created_at), because the source checks each keyword only
when followed by a space. -/
theorem validator_keyword_substring_cex :
    sanitizeSql (enc ("select created_at from t")) =
      Except.ok (enc ("select created_at from t")) ∧
    containsSub (enc ("create")) (lowerL (enc ("select created_at from t"))) = true := by
  constructor
  · decide
  · decide

/-- C1 (amended): every accepted query begins with select after
lowercasing and left-trimming, contains no three-backtick fence marker,
does not end with a statement separator, and contains none of the seven
keyword-plus-space patterns as a case-insensitive substring. -/
theorem validator_success_guarantees : ∀ raw s : Str, sanitizeSql raw = Except.ok s →
    isPre sel6 ((lowerL s).dropWhile isPySpace) = true ∧
    containsSub ticks3 s = false ∧
    s.getLast? ≠ some 59 ∧
    (forbiddenList.any fun cmd => containsSub cmd (lowerL s)) = false := by
  intro raw s h
  obtain ⟨hs, hsel, hforb⟩ := sanitize_ok_elim h
  rw [hs]
  exact ⟨hsel, normalize_noFence raw, normalize_last_ne_semi raw, hforb⟩

/-- C1, witness of the amended theorem at a concrete accepted query. -/
theorem validator_success_guarantees_witness :
    isPre sel6 ((lowerL (enc ("select 1"))).dropWhile isPySpace) = true ∧
    containsSub ticks3 (enc ("select 1")) = false ∧
    (enc ("select 1")).getLast? ≠ some 59 ∧
    (forbiddenList.any fun cmd => containsSub cmd (lowerL (enc ("select 1")))) = false :=
  validator_success_guarantees (enc ("select 1")) (enc ("select 1")) (by decide)

/-! Claim C4. -/

/-- C4, counterexample: an input containing a forbidden keyword followed
by whitespace (a TAB) that the validator nevertheless accepts, because
the source patterns require a space character specifically. -/
theorem validator_keyword_tab_cex :
    isPySpace 9 = true ∧
    containsSub (enc ("insert\t")) (lowerL (enc ("select insert\tx"))) = true ∧
    sanitizeSql (enc ("select insert\tx")) = Except.ok (enc ("select insert\tx")) := by
  refine ⟨by decide, by decide, by decide⟩

/-- C4 (amended): whenever the normalized text contains one of the seven
keyword-plus-space patterns as a case-insensitive substring, validation
fails with the invalid-query error kind, regardless of whether the text
starts with select. -/
theorem validator_rejects_forbidden : ∀ (raw cmd : Str), cmd ∈ forbiddenList →
    containsSub cmd (lowerL (normalizeSql raw)) = true →
    ∃ e, sanitizeSql raw = Except.error e ∧ e.kind = ErrKind.invalidQueryKind := by
  intro raw cmd hmem hc
  exact sanitize_forbidden_error (List.any_eq_true.mpr ⟨cmd, hmem, hc⟩)

/-- C4, witness of the amended theorem on a query containing drop
followed by a space. -/
theorem validator_rejects_forbidden_witness :
    ∃ e, sanitizeSql (enc ("select x from t where drop it")) = Except.error e ∧
      e.kind = ErrKind.invalidQueryKind :=
  validator_rejects_forbidden (enc ("select x from t where drop it")) (enc ("drop "))
    (by decide) (by decide)

/-! Claim C5. -/

/-- C5, counterexample: an input ending in two semicolons loses both,
not just one, because the source right-strip removes the whole trailing
run of semicolons. -/
theorem validator_semicolon_cex :
    sanitizeSql (enc ("select 1;;")) = Except.ok (enc ("select 1")) ∧
    ¬(enc ("select 1") = enc ("select 1;")) := by
  constructor
  · decide
  · decide

/-- C5 (amended): the accepted output is the fence-stripped, trimmed
input with every trailing semicolon removed, so it never ends in a
statement separator. -/
theorem validator_normalization : ∀ raw s : Str, sanitizeSql raw = Except.ok s →
    s = rstripSemi (pyStrip (stripFences raw)) ∧ s.getLast? ≠ some 59 := by
  intro raw s h
  obtain ⟨hs, -, -⟩ := sanitize_ok_elim h
  refine ⟨hs, ?_⟩
  rw [hs]
  exact normalize_last_ne_semi raw

/-- C5, witness of the amended theorem on the double-semicolon input. -/
theorem validator_normalization_witness :
    enc ("select 1") = rstripSemi (pyStrip (stripFences (enc ("select 1;;")))) ∧
    (enc ("select 1")).getLast? ≠ some 59 :=
  validator_normalization (enc ("select 1;;")) (enc ("select 1")) (by decide)

/-! Claim C9. -/

/-- C9, counterexample: validation is not idempotent, because stripping
the trailing semicolon can expose trailing whitespace that a second
validation then trims away. -/
theorem validator_idempotent_cex :
    sanitizeSql (enc ("select 1 ;")) = Except.ok (enc ("select 1 ")) ∧
    sanitizeSql (enc ("select 1 ")) = Except.ok (enc ("select 1")) ∧
    ¬(enc ("select 1") = enc ("select 1 ")) := by
  refine ⟨by decide, by decide, by decide⟩

/-- C9 (amended): re-validating an accepted output always succeeds and
returns it with trailing whitespace and then trailing semicolons
removed; in particular an accepted output with no trailing whitespace is
returned unchanged. -/
theorem validator_revalidate : ∀ raw s : Str, sanitizeSql raw = Except.ok s →
    sanitizeSql s = Except.ok (rstripSemi (rstripWs s)) ∧
    (rstripWs s = s → sanitizeSql s = Except.ok s) := by
  intro raw s h
  refine ⟨sanitize_revalidate h, fun hws => ?_⟩
  rw [sanitize_revalidate h, hws, sanitize_output_rstripSemi h]

/-- C9, witness of the amended theorem on a concrete accepted output. -/
theorem validator_revalidate_witness :
    sanitizeSql (enc ("select 1")) =
      Except.ok (rstripSemi (rstripWs (enc ("select 1")))) ∧
    (rstripWs (enc ("select 1")) = enc ("select 1") →
      sanitizeSql (enc ("select 1")) = Except.ok (enc ("select 1"))) :=
  validator_revalidate (enc (" select 1")) (enc ("select 1")) (by decide)

/-! Orchestrator-level helper lemmas. -/

theorem agentQuery_gen_error {env : Env} {q : Str} {e : AgentError}
    (h : generateSql env q = Except.error e) :
    agentQuery env q = AgentResponse.failure e (getSuggestion q e.msg) none := by
  simp [agentQuery, h]

theorem agentQuery_exec_error {env : Env} {q sql : Str} {e : AgentError}
    (h1 : generateSql env q = Except.ok sql) (h2 : executeQuery env sql = Except.error e) :
    agentQuery env q = AgentResponse.failure e (getSuggestion q e.msg) (some sql) := by
  simp [agentQuery, h1, h2]

theorem agentQuery_ans_error {env : Env} {q sql : Str} {data : ResultSet} {e : AgentError}
    (h1 : generateSql env q = Except.ok sql) (h2 : executeQuery env sql = Except.ok data)
    (h3 : generateAnswer env q data sql = Except.error e) :
    agentQuery env q = AgentResponse.failure e (getSuggestion q e.msg) (some sql) := by
  simp [agentQuery, h1, h2, h3]

theorem agentQuery_all_ok {env : Env} {q sql answer : Str} {data : ResultSet}
    (h1 : generateSql env q = Except.ok sql) (h2 : executeQuery env sql = Except.ok data)
    (h3 : generateAnswer env q data sql = Except.ok answer) :
    agentQuery env q = AgentResponse.success answer
      (generateVisualization env.parseDate q data).snd
      (generateVisualization env.parseDate q data).fst sql := by
  simp [agentQuery, h1, h2, h3]

theorem agentQuery_failure_cases {env : Env} {q : Str} {err : AgentError} {sug : Str}
    {o : Option Str} (h : agentQuery env q = AgentResponse.failure err sug o) :
    sug = getSuggestion q err.msg ∧
    ((generateSql env q = Except.error err ∧ o = none) ∨
      (∃ sql, generateSql env q = Except.ok sql ∧ o = some sql)) := by
  cases hg : generateSql env q with
  | error e =>
    rw [agentQuery_gen_error hg] at h
    simp only [AgentResponse.failure.injEq] at h
    obtain ⟨he, hsug, ho⟩ := h
    subst he
    exact ⟨hsug.symm, Or.inl ⟨rfl, ho.symm⟩⟩
  | ok sql =>
    cases he2 : executeQuery env sql with
    | error e =>
      rw [agentQuery_exec_error hg he2] at h
      simp only [AgentResponse.failure.injEq] at h
      obtain ⟨he, hsug, ho⟩ := h
      subst he
      exact ⟨hsug.symm, Or.inr ⟨sql, rfl, ho.symm⟩⟩
    | ok data =>
      cases ha : generateAnswer env q data sql with
      | error e =>
        rw [agentQuery_ans_error hg he2 ha] at h
        simp only [AgentResponse.failure.injEq] at h
        obtain ⟨he, hsug, ho⟩ := h
        subst he
        exact ⟨hsug.symm, Or.inr ⟨sql, rfl, ho.symm⟩⟩
      | ok answer =>
        rw [agentQuery_all_ok hg he2 ha] at h
        exact absurd h (by simp)

theorem getSuggestion_eq_spec (q e : Str) : getSuggestion q e = suggestionSpec e := rfl

theorem suggestionSpec_cases (e : Str) :
    suggestionSpec e = sugTables ∨ suggestionSpec e = sugColumns ∨
    suggestionSpec e = sugQueries ∨ suggestionSpec e = sugGeneric := by
  unfold suggestionSpec
  split
  · exact Or.inl rfl
  · split
    · exact Or.inr (Or.inl rfl)
    · split
      · exact Or.inr (Or.inr (Or.inl rfl))
      · exact Or.inr (Or.inr (Or.inr rfl))

/-! Claim C2. -/

/-- C2, counterexample: the completion capability returns text that
contains delete followed by a space, yet the pipeline succeeds and
reaches the executor, because the trailing space is trimmed before the
keyword scan. -/
theorem pipeline_delete_text_cex :
    containsSub (enc ("delete ")) (lowerL (enc ("select delete "))) = true ∧
    envC2.llmSql (enc ("q")) = Except.ok (enc ("select delete ")) ∧
    agentQuery envC2 (enc ("q")) =
      AgentResponse.success (enc ("ans")) rsEmptyX none (enc ("select delete")) := by
  refine ⟨by decide, by decide, by decide⟩

/-- C2 (amended): when the completion output's normalized text still
contains delete-plus-space, validation fails; and whenever validation
fails, the failure kind is invalid-query, the pipeline stops in the
failure state with no SQL attached, and the outcome is the same for
every store, answer capability and date parser, so the executor, the
answer synthesis and the visualization are never invoked. -/
theorem pipeline_invalid_sql_shortcircuit : ∀ (env : Env) (q raw : Str),
    env.llmSql q = Except.ok raw →
    (containsSub (enc ("delete ")) (lowerL (normalizeSql (pyStrip raw))) = true →
      ∃ e, sanitizeSql (pyStrip raw) = Except.error e) ∧
    (∀ e, sanitizeSql (pyStrip raw) = Except.error e →
      e.kind = ErrKind.invalidQueryKind ∧
      agentQuery env q = AgentResponse.failure e (getSuggestion q e.msg) none ∧
      (∀ (db : Str → Except Str ResultSet)
          (an : Str → ResultSet → Str → Except Str Str)
          (pdf : Value → Option Value),
        agentQuery ⟨env.llmSql, db, an, pdf⟩ q =
          AgentResponse.failure e (getSuggestion q e.msg) none)) := by
  intro env q raw hllm
  constructor
  · intro hdel
    obtain ⟨e, he, -⟩ := sanitize_forbidden_error
      (List.any_eq_true.mpr ⟨enc ("delete "), by decide, hdel⟩)
    exact ⟨e, he⟩
  · intro e he
    have hgen : generateSql env q = Except.error e := by
      unfold generateSql
      simp only [hllm]
      exact he
    refine ⟨sanitize_error_kind he, ?_, ?_⟩
    · unfold agentQuery
      rw [hgen]
    · intro db an pdf
      have hgen2 : generateSql ⟨env.llmSql, db, an, pdf⟩ q = Except.error e := by
        unfold generateSql
        simp only [hllm]
        exact he
      unfold agentQuery
      rw [hgen2]

/-- C2, witness of the amended theorem on a completion that emits a
mutating statement. -/
theorem pipeline_invalid_sql_witness :
    (⟨ErrKind.invalidQueryKind, msgNotSelect ++ enc ("DELETE FROM t")⟩ : AgentError).kind =
      ErrKind.invalidQueryKind ∧
    agentQuery envBadSql (enc ("q")) = AgentResponse.failure
      ⟨ErrKind.invalidQueryKind, msgNotSelect ++ enc ("DELETE FROM t")⟩
      (getSuggestion (enc ("q")) (msgNotSelect ++ enc ("DELETE FROM t"))) none ∧
    (∀ (db : Str → Except Str ResultSet)
        (an : Str → ResultSet → Str → Except Str Str)
        (pdf : Value → Option Value),
      agentQuery ⟨envBadSql.llmSql, db, an, pdf⟩ (enc ("q")) = AgentResponse.failure
        ⟨ErrKind.invalidQueryKind, msgNotSelect ++ enc ("DELETE FROM t")⟩
        (getSuggestion (enc ("q")) (msgNotSelect ++ enc ("DELETE FROM t"))) none) :=
  (pipeline_invalid_sql_shortcircuit envBadSql (enc ("q")) (enc ("DELETE FROM t"))
    (by decide)).2
    ⟨ErrKind.invalidQueryKind, msgNotSelect ++ enc ("DELETE FROM t")⟩ (by decide)

/-! Claim C3. -/

/-- C3: the pipeline always returns a tagged outcome; a generation
failure produces the failure record with no SQL attached, and any
failure occurring after generation succeeded carries the generated
SQL. -/
theorem orchestrator_failure_shape : ∀ (env : Env) (q : Str),
    ((∃ a d v sq, agentQuery env q = AgentResponse.success a d v sq) ∨
      (∃ e sg o, agentQuery env q = AgentResponse.failure e sg o)) ∧
    (∀ e, generateSql env q = Except.error e →
      agentQuery env q = AgentResponse.failure e (getSuggestion q e.msg) none) ∧
    (∀ sql err sug o, generateSql env q = Except.ok sql →
      agentQuery env q = AgentResponse.failure err sug o → o = some sql) := by
  intro env q
  refine ⟨?_, ?_, ?_⟩
  · cases hq : agentQuery env q with
    | success a d v sq => exact Or.inl ⟨a, d, v, sq, rfl⟩
    | failure e sg o => exact Or.inr ⟨e, sg, o, rfl⟩
  · intro e he
    unfold agentQuery
    rw [he]
  · intro sql err sug o hg h
    rcases (agentQuery_failure_cases h).2 with ⟨h1, -⟩ | ⟨sql2, h1, h2⟩
    · rw [hg] at h1
      exact absurd h1 (by simp)
    · rw [hg] at h1
      injection h1 with h1
      rw [h2, h1]

/-- C3, witness on the fixture whose completion capability fails. -/
theorem orchestrator_failure_shape_witness :
    agentQuery envGenFail (enc ("q")) = AgentResponse.failure
      ⟨ErrKind.generationFailure, enc ("boom")⟩
      (getSuggestion (enc ("q")) (enc ("boom"))) none :=
  (orchestrator_failure_shape envGenFail (enc ("q"))).2.1
    ⟨ErrKind.generationFailure, enc ("boom")⟩ (by decide)

/-! Claim C6. -/

/-- C6, counterexample: a non-empty result set matching no chart rule
yields a non-null visualization (the saved blank figure), not null. -/
theorem visualizer_no_rule_cex :
    rsNoRule.isEmptyDf = false ∧
    hasCol rsNoRule.cols (enc ("date")) = false ∧
    (generateVisualization pd0 (enc ("q")) rsNoRule).fst = some Chart.blank ∧
    ¬((generateVisualization pd0 (enc ("q")) rsNoRule).fst = none) := by
  refine ⟨by decide, by decide, by decide, by decide⟩

/-- C6 (amended): an empty result set yields no visualization; a
non-empty result set matching no chart rule yields the blank-figure
visualization; in both cases no error is raised and the rows are
unchanged. -/
theorem visualizer_unrecognized : ∀ (pdf : Value → Option Value) (q : Str) (rs : ResultSet),
    (rs.isEmptyDf = true → generateVisualization pdf q rs = (none, rs)) ∧
    (rs.isEmptyDf = false → hasCol rs.cols (enc ("date")) = false →
      (hasCol rs.cols (enc ("item_id")) && hasCol rs.cols (enc ("ad_sales")) &&
        hasCol rs.cols (enc ("ad_spend"))) = false →
      generateVisualization pdf q rs = (some Chart.blank, rs)) := by
  intro pdf q rs
  constructor
  · intro h
    simp [generateVisualization, h]
  · intro h1 h2 h3
    simp [generateVisualization, h1, h2, h3]

/-- C6, witness on the empty and the unrecognized fixtures. -/
theorem visualizer_unrecognized_witness :
    generateVisualization pd0 (enc ("q")) rsEmptyX = (none, rsEmptyX) ∧
    generateVisualization pd0 (enc ("qq")) rsNoRule = (some Chart.blank, rsNoRule) :=
  ⟨(visualizer_unrecognized pd0 (enc ("q")) rsEmptyX).1 (by decide),
   (visualizer_unrecognized pd0 (enc ("qq")) rsNoRule).2 (by decide) (by decide) (by decide)⟩

/-! Claim C7. -/

set_option maxRecDepth 8000 in
/-- C7, counterexample: on the ratio-chart path the visualizer mutates
the shared frame, so the success response carries a ROAS column that
query execution never returned. -/
theorem response_mutated_by_viz_cex :
    executeQuery envC7 (enc ("SELECT item_id, ad_sales, ad_spend FROM ad_metrics")) =
      Except.ok rsRoas ∧
    agentQuery envC7 (enc ("q")) = AgentResponse.success (enc ("ans")) rsRoasAfter
      (some (Chart.bar (enc ("item_id")) (enc ("ROAS")) (enc ("Return on Ad Spend"))))
      (enc ("SELECT item_id, ad_sales, ad_spend FROM ad_metrics")) ∧
    ¬(rsRoasAfter = rsRoas) := by
  refine ⟨by decide, by decide, by decide⟩

/-- C7 (amended): when every stage succeeds, the success response
carries the answer synthesized from the rows as returned by execution,
while its data field is those rows as further transformed in place by
the visualization step. -/
theorem response_reflects_viz_mutation : ∀ (env : Env) (q sql : Str) (data : ResultSet)
    (answer : Str),
    generateSql env q = Except.ok sql →
    executeQuery env sql = Except.ok data →
    generateAnswer env q data sql = Except.ok answer →
    agentQuery env q = AgentResponse.success answer
      (generateVisualization env.parseDate q data).snd
      (generateVisualization env.parseDate q data).fst sql := by
  intro env q sql data answer h1 h2 h3
  simp [agentQuery, h1, h2, h3]

set_option maxRecDepth 8000 in
/-- C7, witness on the ratio-chart fixture. -/
theorem response_reflects_viz_mutation_witness :
    agentQuery envC7 (enc ("q")) = AgentResponse.success (enc ("ans"))
      (generateVisualization envC7.parseDate (enc ("q")) rsRoas).snd
      (generateVisualization envC7.parseDate (enc ("q")) rsRoas).fst
      (enc ("SELECT item_id, ad_sales, ad_spend FROM ad_metrics")) :=
  response_reflects_viz_mutation envC7 (enc ("q"))
    (enc ("SELECT item_id, ad_sales, ad_spend FROM ad_metrics")) rsRoas (enc ("ans"))
    (by decide) (by decide) (by decide)

/-! Claim C8. -/

/-- C8: every failure's suggestion is obtained from the failure message
by the spec's priority mapping and is always one of the four fixed
templates. -/
theorem orchestrator_suggestion : ∀ (env : Env) (q : Str) (err : AgentError) (sug : Str)
    (o : Option Str),
    agentQuery env q = AgentResponse.failure err sug o →
    sug = suggestionSpec err.msg ∧
    (sug = sugTables ∨ sug = sugColumns ∨ sug = sugQueries ∨ sug = sugGeneric) := by
  intro env q err sug o h
  have h1 := (agentQuery_failure_cases h).1
  rw [getSuggestion_eq_spec] at h1
  refine ⟨h1, ?_⟩
  rw [h1]
  exact suggestionSpec_cases err.msg

/-- C8, witness on a failure whose message matches no template, mapped
to the generic suggestion. -/
theorem orchestrator_suggestion_witness :
    sugGeneric = suggestionSpec (enc ("boom")) ∧
    (sugGeneric = sugTables ∨ sugGeneric = sugColumns ∨ sugGeneric = sugQueries ∨
      sugGeneric = sugGeneric) :=
  orchestrator_suggestion envGenFail (enc ("q"))
    ⟨ErrKind.generationFailure, enc ("boom")⟩ sugGeneric none (by decide)

/-! Claim C10. -/

/-- C10: the suggestion depends only on the error text; the question
argument never influences which template is returned. -/
theorem suggestion_question_independent : ∀ q1 q2 e : Str,
    getSuggestion q1 e = getSuggestion q2 e := fun _ _ _ => rfl

end ECommerceAgent
